import Mathlib

/-!
# Exception.js: serialization of chained errors

A shallow embedding of `src/lib/Exception.js`: the JavaScript values the
serializer inspects, the `Exception` class (constructor, `cause` accessor,
`toJSON`, `toObject`) and the static `Exception.errSerializer`.
-/

namespace Exception

/-- JavaScript values, as far as `errSerializer` can tell them apart.

* `num`/`nan`: numbers (only zero and `NaN` are falsy, so integers and `NaN`
  carry all that the truthiness tests can observe);
* `func id outcome`: a function, with what a zero-argument call of it does:
  `some r` returns `r`, `none` throws;
* `obj fields`: a plain object (not an instance of `Error`), its own
  properties in insertion order;
* `error name message code signal stack cause`: an instance of `Error` (or of
  a subclass such as `Exception`); each component is what reading the property
  of that name yields (`undefined` when it is absent). -/
inductive Val where
  | undefined : Val
  | null : Val
  | bool (b : Bool) : Val
  | num (n : Int) : Val
  | nan : Val
  | str (s : String) : Val
  | func (id : Nat) (outcome : Option Val) : Val
  | obj (fields : List (String × Val)) : Val
  | error (name message code signal stack cause : Val) : Val

namespace Val

/-- JavaScript `ToBoolean`: what `if (v)` tests. -/
def truthy : Val → Bool
  | undefined => false
  | null => false
  | bool b => b
  | num n => n != 0
  | nan => false
  | str s => s != ""
  | func _ _ => true
  | obj _ => true
  | error _ _ _ _ _ _ => true

/-- The test `v instanceof Error`. -/
def isError : Val → Bool
  | error _ _ _ _ _ _ => true
  | _ => false

/-- The test `typeof v === "function"`. -/
def isFunction : Val → Bool
  | func _ _ => true
  | _ => false

/-- Lookup of an own property in a property list. -/
def lookup (k : String) : List (String × Val) → Option Val
  | [] => none
  | (k', v) :: rest => if k' = k then some v else lookup k rest

/-- The assignment `o[k] = v` on the property list of a plain object: an
existing key keeps its place, a new key goes last. -/
def setProp (k : String) (v : Val) : List (String × Val) → List (String × Val)
  | [] => [(k, v)]
  | (k', v') :: rest => if k' = k then (k, v) :: rest else (k', v') :: setProp k v rest

/-- Reading `v[k]`: `undefined` when there is no such property. -/
def get (v : Val) (k : String) : Val :=
  match v with
  | obj fields => (lookup k fields).getD undefined
  | error name message code signal stack cause =>
    if k = "name" then name
    else if k = "message" then message
    else if k = "code" then code
    else if k = "signal" then signal
    else if k = "stack" then stack
    else if k = "cause" then cause
    else undefined
  | _ => undefined

/-- The own property `k` of the plain object `v`, if it has one. -/
def getOwn (v : Val) (k : String) : Option Val :=
  match v with
  | obj fields => lookup k fields
  | _ => none

/-- Whether the plain object `v` has an own property `k`. -/
def hasKey (v : Val) (k : String) : Bool :=
  (getOwn v k).isSome

/-- The own keys of a plain object, in insertion order. -/
def keys : Val → List String
  | obj fields => fields.map Prod.fst
  | _ => []

end Val

open Val

/-- Lines 89-97 of `errSerializer`: read `err["cause"]` and, when it is a
function, call it; a call that throws leaves `null`. -/
def resolveCause (err : Val) : Val :=
  let cause := err.get "cause"
  match cause with
  | func _ (some r) => r
  | func _ none => null
  | c => c

/-- `Exception.errSerializer(err, showStack)`. -/
def errSerializer : Val → Bool → Val
  | error name message code signal stack cause, showStack =>
    let o : List (String × Val) := []
    let o := if truthy name then setProp "name" name o else o
    let o := if truthy message then setProp "message" message o else o
    let o := if truthy code then setProp "code" code o else o
    let o := if truthy signal then setProp "signal" signal o else o
    let o := if showStack then (if truthy stack then setProp "stack" stack o else o) else o
    match cause with
    | func _ (some r) =>
      if truthy r then obj (setProp "cause" (errSerializer r showStack) o) else obj o
    | func _ none => obj o
    | c =>
      if truthy c then obj (setProp "cause" (errSerializer c showStack) o) else obj o
  | v, _ => v

/-- The initial value of `Error.prototype.name` in the host language: what
`err.name` reads on an error whose class sets no name of its own. -/
def errorPrototypeName : Val := str "Error"

/-- The initial value of `Error.prototype.message`: what `err.message` reads on
an error constructed without a message. -/
def errorPrototypeMessage : Val := str ""

/-- `new Exception(message, cause)` (lines 17-20). An omitted argument is
`none`; the default `cause = null` also applies to an explicit `undefined`.
`super(message)` stores the message when one is given, the class sets neither
`name`, `code` nor `signal`, and `stack` is the trace the runtime captured. -/
def constructor (message : Option String) (cause : Option Val) (stack : Val) : Val :=
  let _cause :=
    match cause with
    | none => null
    | some undefined => null
    | some c => c
  let msg :=
    match message with
    | none => errorPrototypeMessage
    | some m => str m
  error errorPrototypeName msg undefined undefined stack _cause

/-- The accessor `get cause()` (lines 27-29): returns `this._cause`, which the
`cause` component of an `error` holds. -/
def cause : Val → Val
  | error _ _ _ _ _ _cause => _cause
  | _ => undefined

/-- `this.toObject(showStack)` (lines 51-53); `none` is an omitted argument,
for which the default `true` applies. -/
def toObject (this : Val) (showStack : Option Bool) : Val :=
  errSerializer this (showStack.getD true)

/-- `this.toJSON(key)` (lines 41-43); the key is not used. -/
def toJSON (this : Val) (_key : Option Val) : Val :=
  toObject this none

/-- The error-like value reached from `e` after `k` steps along resolved
causes; `none` once a step leaves the error-like values or finds a falsy
cause, where `errSerializer` stops recursing. -/
def causeAt : Nat → Val → Option Val
  | 0, e => some e
  | k + 1, e =>
    if isError e && truthy (resolveCause e) then causeAt k (resolveCause e) else none

/-- The value found in `r` after following the key `cause` `k` times. -/
def nested : Nat → Val → Option Val
  | 0, r => some r
  | k + 1, r => (getOwn r "cause").bind (nested k)

/-! ## Auxiliary facts -/

/-- The record built by lines 70-88, before the cause is looked at. -/
def baseFields (name message code signal stack : Val) (showStack : Bool) :
    List (String × Val) :=
  let o : List (String × Val) := []
  let o := if truthy name then setProp "name" name o else o
  let o := if truthy message then setProp "message" message o else o
  let o := if truthy code then setProp "code" code o else o
  let o := if truthy signal then setProp "signal" signal o else o
  if showStack then (if truthy stack then setProp "stack" stack o else o) else o

/-- The fields of an error other than its cause. -/
structure ErrFields where
  name : Val
  message : Val
  code : Val
  signal : Val
  stack : Val

/-- The chain of errors with the given fields, outermost first, in which the
`cause` of each error is the next error and the `cause` of the innermost
error reads `last`. -/
def chainOf (last : Val) : List ErrFields → Val
  | [] => last
  | f :: fs => error f.name f.message f.code f.signal f.stack (chainOf last fs)

/-- `Exception.errSerializer(err, showStack)`, returning beside the result the
identifiers of the functions it called (line 93), in the order of the calls. -/
def errSerializerTraced : Val → Bool → Val × List Nat
  | error name message code signal stack cause, showStack =>
    let o := baseFields name message code signal stack showStack
    match cause with
    | func id (some r) =>
      if truthy r then
        (obj (setProp "cause" (errSerializerTraced r showStack).1 o),
          id :: (errSerializerTraced r showStack).2)
      else (obj o, [id])
    | func id none => (obj o, [id])
    | c =>
      if truthy c then
        (obj (setProp "cause" (errSerializerTraced c showStack).1 o),
          (errSerializerTraced c showStack).2)
      else (obj o, [])
  | v, _ => (v, [])

/-! ### Errors held in a store

A value of `Val` is a finite tree, so no error of `Val` is its own cause. To
speak of such errors, error objects are also modelled as held in a store and
referred to by address. -/

/-- What reading `cause` on a stored error yields: a value in which no stored
error takes part (`val`), the stored error at an address (`ref`), or a
function whose call returns the stored error at an address (`lazy`). -/
inductive Link where
  | val (v : Val)
  | ref (a : Nat)
  | lazy (id : Nat) (a : Nat)

/-- An error object held in the store: what reading each property yields. -/
structure Stored where
  name : Val
  message : Val
  code : Val
  signal : Val
  stack : Val
  cause : Link

/-- The store: the error object at each address. -/
abbrev Store := Nat → Stored

/-- A resolved cause: a value, or the stored error at an address. -/
inductive Resolved where
  | value (v : Val)
  | stored (a : Nat)

/-- Lines 89-97 on a stored error: a function is called, a call that throws
leaves `null`. -/
def resolveLink : Link → Resolved
  | Link.val (func _ (some r)) => Resolved.value r
  | Link.val (func _ none) => Resolved.value null
  | Link.val v => Resolved.value v
  | Link.ref a => Resolved.stored a
  | Link.lazy _ a => Resolved.stored a

/-- `Exception.errSerializer(err, showStack)` for the stored error at address
`a`, with a bound on the depth of the recursion: `none` when the call would
recurse deeper than `depth` calls. A cause that is a stored error is always
truthy, and line 99 serializes it by the recursive call. -/
def errSerializerS (σ : Store) : Nat → Nat → Bool → Option Val
  | 0, _, _ => none
  | depth + 1, a, showStack =>
    let err := σ a
    let o : List (String × Val) := []
    let o := if truthy err.name then setProp "name" err.name o else o
    let o := if truthy err.message then setProp "message" err.message o else o
    let o := if truthy err.code then setProp "code" err.code o else o
    let o := if truthy err.signal then setProp "signal" err.signal o else o
    let o :=
      if showStack then (if truthy err.stack then setProp "stack" err.stack o else o) else o
    match resolveLink err.cause with
    | Resolved.value c =>
      if truthy c then some (obj (setProp "cause" (errSerializer c showStack) o))
      else some (obj o)
    | Resolved.stored b =>
      match errSerializerS σ depth b showStack with
      | some r => some (obj (setProp "cause" r o))
      | none => none

/-- The stored error that the resolved cause of the stored error at `a` is,
if it is one. -/
def nextStored (σ : Store) (a : Nat) : Option Nat :=
  match resolveLink (σ a).cause with
  | Resolved.stored b => some b
  | Resolved.value _ => none

/-- The stored error reached from `a` after `k` steps along resolved causes. -/
def storedAt (σ : Store) : Nat → Nat → Option Nat
  | 0, a => some a
  | k + 1, a => (nextStored σ a).bind (storedAt σ k)

/-- Whether the chain of stored errors that starts at `a` ends within `n`
errors: the chain is finite, of length at most `n`. -/
def chainEnds (σ : Store) : Nat → Nat → Bool
  | 0, _ => false
  | n + 1, a =>
    match nextStored σ a with
    | none => true
    | some b => chainEnds σ n b

/-- The stored error at `a` as a value of `Val`, when its chain of stored
errors ends within `n` errors. -/
def unfoldS (σ : Store) : Nat → Nat → Option Val
  | 0, _ => none
  | n + 1, a =>
    let e := σ a
    match e.cause with
    | Link.val v => some (error e.name e.message e.code e.signal e.stack v)
    | Link.ref b =>
      (unfoldS σ n b).map fun c => error e.name e.message e.code e.signal e.stack c
    | Link.lazy i b =>
      (unfoldS σ n b).map fun c =>
        error e.name e.message e.code e.signal e.stack (func i (some c))

/-- A store in which the error at address `0` is its own cause. -/
def selfCaused : Store :=
  fun _ => ⟨str "Error", str "loop", undefined, undefined, str "trace", Link.ref 0⟩

/-- A store with the chain `0 → 1 → 2`, the cause of the error at `1` being a
function that returns the error at `2`, and the cause of the error at `2` a
function that throws. -/
def faultyChain : Store :=
  fun a =>
    match a with
    | 0 => ⟨str "Error", str "outer", undefined, undefined, str "t0", Link.ref 1⟩
    | 1 => ⟨str "Error", str "middle", str "EIO", undefined, str "t1", Link.lazy 7 2⟩
    | _ => ⟨str "Error", str "inner", undefined, undefined, str "t2", Link.val (func 8 none)⟩

/-! ### JSON values -/

mutual
/-- Whether `JSON.parse(JSON.stringify(v))` is structurally identical to `v`:
`v` is built from `null`, booleans, numbers, strings and plain objects of
such. `undefined` and functions have no JSON text (a property that holds one
is dropped), `NaN` is encoded as `null`, and an instance of `Error` is decoded
as a plain object. -/
def jsonSafe : Val → Bool
  | null => true
  | Val.bool _ => true
  | num _ => true
  | str _ => true
  | obj fields => jsonSafeFields fields
  | _ => false
/-- Whether every property value of a property list is `jsonSafe`. -/
def jsonSafeFields : List (String × Val) → Bool
  | [] => true
  | (_, v) :: rest => jsonSafe v && jsonSafeFields rest
end

/-- Whether every value that `errSerializer v showStack` copies into its
result is `jsonSafe`: at each error of the chain the truthy ones among `name`,
`message`, `code`, `signal` and, with the flag set, `stack`; and the value
that is not an error, at the end of the chain, when it is truthy. -/
def copiesJson : Val → Bool → Bool
  | error name message code signal stack cause, showStack =>
    (!truthy name || jsonSafe name) && (!truthy message || jsonSafe message) &&
    (!truthy code || jsonSafe code) && (!truthy signal || jsonSafe signal) &&
    (!(showStack && truthy stack) || jsonSafe stack) &&
    match cause with
    | func _ (some r) => !truthy r || copiesJson r showStack
    | func _ none => true
    | c => !truthy c || copiesJson c showStack
  | v, _ => jsonSafe v

/-- The stored error that the `cause` property of the stored error at `a`
holds, when it holds a stored error itself and not a function. -/
def nextRef (σ : Store) (a : Nat) : Option Nat :=
  match (σ a).cause with
  | Link.ref b => some b
  | _ => none

/-- The stored error reached from `a` after `k` steps along `cause`
properties that hold the next error itself. -/
def refAt (σ : Store) : Nat → Nat → Option Nat
  | 0, a => some a
  | k + 1, a => (nextRef σ a).bind (refAt σ k)

theorem resolveCause_error (n m c sg st ca : Val) :
    resolveCause (error n m c sg st ca) =
      match ca with
      | func _ (some r) => r
      | func _ none => null
      | x => x := by
  simp [resolveCause, Val.get]

theorem errSerializer_error (n m c sg st ca : Val) (s : Bool) :
    errSerializer (error n m c sg st ca) s =
      if truthy (resolveCause (error n m c sg st ca)) then
        obj (setProp "cause" (errSerializer (resolveCause (error n m c sg st ca)) s)
          (baseFields n m c sg st s))
      else obj (baseFields n m c sg st s) := by
  rw [resolveCause_error]
  cases ca with
  | func i out => cases out <;> simp [errSerializer, baseFields, truthy]
  | _ => simp [errSerializer, baseFields, truthy]

theorem lookup_setProp_self (k : String) (v : Val) (o : List (String × Val)) :
    lookup k (setProp k v o) = some v := by
  induction o with
  | nil => simp [setProp, lookup]
  | cons p rest ih =>
    obtain ⟨k1, v1⟩ := p
    by_cases h : k1 = k <;> simp [setProp, lookup, h, ih]

theorem lookup_setProp_other (k j : String) (v : Val) (o : List (String × Val))
    (h : k ≠ j) : lookup j (setProp k v o) = lookup j o := by
  induction o with
  | nil => simp [setProp, lookup, h]
  | cons p rest ih =>
    obtain ⟨k1, v1⟩ := p
    by_cases h1 : k1 = k
    · subst h1
      simp [setProp, lookup, h]
    · by_cases h2 : k1 = j
      · subst h2
        simp [setProp, lookup, h1]
      · simp [setProp, lookup, h1, h2, ih]

theorem lookup_baseFields_name (n m c sg st : Val) (s : Bool) :
    lookup "name" (baseFields n m c sg st s) = if truthy n then some n else none := by
  unfold baseFields
  cases s <;> cases truthy n <;> cases truthy m <;> cases truthy c <;> cases truthy sg <;>
    cases truthy st <;> simp [setProp, lookup]

theorem lookup_baseFields_message (n m c sg st : Val) (s : Bool) :
    lookup "message" (baseFields n m c sg st s) = if truthy m then some m else none := by
  unfold baseFields
  cases s <;> cases truthy n <;> cases truthy m <;> cases truthy c <;> cases truthy sg <;>
    cases truthy st <;> simp [setProp, lookup]

theorem lookup_baseFields_code (n m c sg st : Val) (s : Bool) :
    lookup "code" (baseFields n m c sg st s) = if truthy c then some c else none := by
  unfold baseFields
  cases s <;> cases truthy n <;> cases truthy m <;> cases truthy c <;> cases truthy sg <;>
    cases truthy st <;> simp [setProp, lookup]

theorem lookup_baseFields_signal (n m c sg st : Val) (s : Bool) :
    lookup "signal" (baseFields n m c sg st s) = if truthy sg then some sg else none := by
  unfold baseFields
  cases s <;> cases truthy n <;> cases truthy m <;> cases truthy c <;> cases truthy sg <;>
    cases truthy st <;> simp [setProp, lookup]

theorem lookup_baseFields_stack (n m c sg st : Val) (s : Bool) :
    lookup "stack" (baseFields n m c sg st s) =
      if s && truthy st then some st else none := by
  unfold baseFields
  cases s <;> cases truthy n <;> cases truthy m <;> cases truthy c <;> cases truthy sg <;>
    cases truthy st <;> simp [setProp, lookup]

theorem lookup_baseFields_cause (n m c sg st : Val) (s : Bool) :
    lookup "cause" (baseFields n m c sg st s) = none := by
  unfold baseFields
  cases s <;> cases truthy n <;> cases truthy m <;> cases truthy c <;> cases truthy sg <;>
    cases truthy st <;> simp [setProp, lookup]

/-- Own properties of the record `errSerializer` returns for an error, other
than `cause`: they are those of `baseFields`. -/
theorem getOwn_errSerializer_other (n m c sg st ca : Val) (s : Bool) (k : String)
    (hk : "cause" ≠ k) :
    getOwn (errSerializer (error n m c sg st ca) s) k = lookup k (baseFields n m c sg st s) := by
  rw [errSerializer_error]
  split <;> simp [getOwn, lookup_setProp_other _ _ _ _ hk]

/-- The `cause` property of the record `errSerializer` returns for an error. -/
theorem getOwn_errSerializer_cause (n m c sg st ca : Val) (s : Bool) :
    getOwn (errSerializer (error n m c sg st ca) s) "cause" =
      if truthy (resolveCause (error n m c sg st ca)) then
        some (errSerializer (resolveCause (error n m c sg st ca)) s)
      else none := by
  rw [errSerializer_error]
  split <;> simp [getOwn, lookup_setProp_self, lookup_baseFields_cause]

/-- Following `cause` in the output mirrors following resolved causes in the
input. -/
theorem nested_errSerializer (k : Nat) (s : Bool) :
    ∀ e c : Val, causeAt k e = some c →
      nested k (errSerializer e s) = some (errSerializer c s) := by
  induction k with
  | zero =>
    intro e c h
    simp only [causeAt, Option.some.injEq] at h
    simp [nested, h]
  | succ k ih =>
    intro e c h
    cases e with
    | error n m cd sg st ca =>
      simp only [causeAt, isError, Bool.true_and] at h
      split at h
      · rename_i ht
        simp only [nested, getOwn_errSerializer_cause, ht, if_true, Option.some_bind]
        exact ih _ _ h
      · simp at h
    | _ => simp [causeAt, isError] at h

/-- With the flag unset, the record of an error has no `stack` key. -/
theorem hasKey_stack_false (n m c sg st ca : Val) :
    hasKey (errSerializer (error n m c sg st ca) false) "stack" = false := by
  simp [hasKey, getOwn_errSerializer_other, lookup_baseFields_stack]

/-- Induction along the cause chain: a property that holds of every value
that is not an error, and of an error whenever it holds of its resolved cause,
holds of every value. -/
theorem chain_induction {P : Val → Prop} (hbase : ∀ v, isError v = false → P v)
    (hstep : ∀ n m c sg st ca, P (resolveCause (error n m c sg st ca)) →
      P (error n m c sg st ca)) : ∀ v, P v
  | error n m c sg st (func i (some r)) =>
    hstep n m c sg st _ (by rw [resolveCause_error]; exact chain_induction hbase hstep r)
  | error n m c sg st (func i none) =>
    hstep n m c sg st _ (by rw [resolveCause_error]; exact hbase null rfl)
  | error n m c sg st (error n1 m1 c1 sg1 st1 ca1) =>
    hstep n m c sg st _ (by
      rw [resolveCause_error]; exact chain_induction hbase hstep (error n1 m1 c1 sg1 st1 ca1))
  | error n m c sg st undefined =>
    hstep n m c sg st _ (by rw [resolveCause_error]; exact hbase undefined rfl)
  | error n m c sg st null =>
    hstep n m c sg st _ (by rw [resolveCause_error]; exact hbase null rfl)
  | error n m c sg st (Val.bool b) =>
    hstep n m c sg st _ (by rw [resolveCause_error]; exact hbase (Val.bool b) rfl)
  | error n m c sg st (num k) =>
    hstep n m c sg st _ (by rw [resolveCause_error]; exact hbase (num k) rfl)
  | error n m c sg st nan =>
    hstep n m c sg st _ (by rw [resolveCause_error]; exact hbase nan rfl)
  | error n m c sg st (str t) =>
    hstep n m c sg st _ (by rw [resolveCause_error]; exact hbase (str t) rfl)
  | error n m c sg st (obj fs) =>
    hstep n m c sg st _ (by rw [resolveCause_error]; exact hbase (obj fs) rfl)
  | undefined => hbase undefined rfl
  | null => hbase null rfl
  | Val.bool b => hbase (Val.bool b) rfl
  | num k => hbase (num k) rfl
  | nan => hbase nan rfl
  | str t => hbase (str t) rfl
  | func i out => hbase (func i out) rfl
  | obj fs => hbase (obj fs) rfl

theorem errSerializerTraced_error (n m c sg st ca : Val) (s : Bool) :
    errSerializerTraced (error n m c sg st ca) s =
      match ca with
      | func i _ =>
        if truthy (resolveCause (error n m c sg st ca)) then
          (obj (setProp "cause"
              (errSerializerTraced (resolveCause (error n m c sg st ca)) s).1
              (baseFields n m c sg st s)),
            i :: (errSerializerTraced (resolveCause (error n m c sg st ca)) s).2)
        else (obj (baseFields n m c sg st s), [i])
      | _ =>
        if truthy (resolveCause (error n m c sg st ca)) then
          (obj (setProp "cause"
              (errSerializerTraced (resolveCause (error n m c sg st ca)) s).1
              (baseFields n m c sg st s)),
            (errSerializerTraced (resolveCause (error n m c sg st ca)) s).2)
        else (obj (baseFields n m c sg st s), []) := by
  rw [resolveCause_error]
  cases ca with
  | func i out => cases out <;> simp [errSerializerTraced, truthy]
  | _ => simp [errSerializerTraced, truthy]

/-- The traced serializer returns what `errSerializer` returns. -/
theorem errSerializerTraced_fst (s : Bool) (v : Val) :
    (errSerializerTraced v s).1 = errSerializer v s := by
  induction v using chain_induction with
  | hbase v h => cases v <;> simp [errSerializerTraced, errSerializer, isError] at h ⊢
  | hstep n m c sg st ca ih =>
    rw [errSerializerTraced_error, errSerializer_error]
    cases ca <;> simp only [] <;> split <;> simp [ih]

/-- One more step along `cause` can be taken at the far end. -/
theorem nested_succ (k : Nat) : ∀ r : Val,
    nested (k + 1) r = (nested k r).bind (fun x => getOwn x "cause") := by
  induction k with
  | zero => intro r; simp [nested]
  | succ k ih =>
    intro r
    rw [nested]
    cases h : getOwn r "cause" with
    | none => simp [nested, h]
    | some x =>
      simp only [Option.some_bind]
      rw [ih x]
      conv => rhs; rw [nested]
      simp [h]

/-- In a chain built by `chainOf`, `j` steps along the causes lead to the
chain without its first `j` errors. -/
theorem causeAt_chainOf (last : Val) : ∀ (l : List ErrFields) (j : Nat), j < l.length →
    causeAt j (chainOf last l) = some (chainOf last (l.drop j)) := by
  intro l
  induction l with
  | nil => intro j hj; simp at hj
  | cons f fs ih =>
    intro j hj
    cases j with
    | zero => simp [causeAt]
    | succ j =>
      have hj1 : j < fs.length := by simpa using hj
      cases fs with
      | nil => simp at hj1
      | cons g gs =>
        have h1 := ih j hj1
        simp only [chainOf] at h1 ⊢
        simp only [causeAt, isError, resolveCause_error, truthy, Bool.and_self, if_true,
          List.drop_succ_cons]
        exact h1

/-! ### Facts about stored errors -/

theorem resolveLink_val (v n m c sg st : Val) :
    resolveLink (Link.val v) = Resolved.value (resolveCause (error n m c sg st v)) := by
  rw [resolveCause_error]
  cases v with
  | func i out => cases out <;> rfl
  | _ => rfl

theorem errSerializerS_succ (σ : Store) (n a : Nat) (s : Bool) :
    errSerializerS σ (n + 1) a s =
      match resolveLink (σ a).cause with
      | Resolved.value c =>
        if truthy c then
          some (obj (setProp "cause" (errSerializer c s)
            (baseFields (σ a).name (σ a).message (σ a).code (σ a).signal (σ a).stack s)))
        else
          some (obj (baseFields (σ a).name (σ a).message (σ a).code (σ a).signal (σ a).stack s))
      | Resolved.stored b =>
        (errSerializerS σ n b s).map fun r =>
          obj (setProp "cause" r
            (baseFields (σ a).name (σ a).message (σ a).code (σ a).signal (σ a).stack s)) := by
  rw [errSerializerS]
  cases resolveLink (σ a).cause with
  | value c => rfl
  | stored b =>
    simp only []
    cases h : errSerializerS σ n b s with
    | none => rfl
    | some r => rfl

/-- The bounded serializer returns exactly when the chain of stored errors
ends within the bound. -/
theorem errSerializerS_isSome (σ : Store) (s : Bool) :
    ∀ (n a : Nat), (errSerializerS σ n a s).isSome = chainEnds σ n a := by
  intro n
  induction n with
  | zero => intro a; rfl
  | succ n ih =>
    intro a
    rw [errSerializerS_succ]
    simp only [chainEnds, nextStored]
    cases resolveLink (σ a).cause with
    | value c => by_cases hc : truthy c = true <;> simp [hc]
    | stored b => simp [ih b]

/-- A larger bound does not change a result. -/
theorem errSerializerS_mono (σ : Store) (s : Bool) :
    ∀ (n a : Nat), chainEnds σ n a = true →
      ∀ f, n ≤ f → errSerializerS σ f a s = errSerializerS σ n a s := by
  intro n
  induction n with
  | zero => intro a h; simp [chainEnds] at h
  | succ n ih =>
    intro a h f hf
    obtain ⟨f1, rfl⟩ : ∃ f1, f = f1 + 1 := ⟨f - 1, by omega⟩
    rw [errSerializerS_succ, errSerializerS_succ]
    simp only [chainEnds, nextStored] at h
    cases hr : resolveLink (σ a).cause with
    | value c => rfl
    | stored b =>
      rw [hr] at h
      simp only [] at h ⊢
      rw [ih b h f1 (by omega)]

theorem unfoldS_isError (σ : Store) :
    ∀ (n a : Nat) (e : Val), unfoldS σ n a = some e → isError e = true := by
  intro n
  cases n with
  | zero => intro a e h; simp [unfoldS] at h
  | succ n =>
    intro a e h
    simp only [unfoldS] at h
    cases hc : (σ a).cause with
    | val v => rw [hc] at h; simp at h; rw [← h]; rfl
    | ref b =>
      rw [hc] at h
      simp only [Option.map_eq_some'] at h
      obtain ⟨c, _, rfl⟩ := h
      rfl
    | lazy i b =>
      rw [hc] at h
      simp only [Option.map_eq_some'] at h
      obtain ⟨c, _, rfl⟩ := h
      rfl

/-- On a chain that ends, the bounded serializer returns what `errSerializer`
returns on the chain taken as a value of `Val`. -/
theorem errSerializerS_eq_unfoldS (σ : Store) (s : Bool) :
    ∀ (n a : Nat),
      errSerializerS σ n a s = (unfoldS σ n a).map fun e => errSerializer e s := by
  intro n
  induction n with
  | zero => intro a; rfl
  | succ n ih =>
    intro a
    rw [errSerializerS_succ]
    simp only [unfoldS]
    cases hc : (σ a).cause with
    | val v =>
      simp only [Option.map_some']
      rw [resolveLink_val v (σ a).name (σ a).message (σ a).code (σ a).signal (σ a).stack,
        errSerializer_error]
      simp only []
      split <;> rfl
    | ref b =>
      simp only [resolveLink]
      rw [ih b]
      cases hu : unfoldS σ n b with
      | none => rfl
      | some c =>
        have hce := unfoldS_isError σ n b c hu
        cases c with
        | error n1 m1 c1 sg1 st1 ca1 =>
          simp only [Option.map_some']
          rw [errSerializer_error (σ a).name, resolveCause_error]
          simp [truthy]
        | _ => simp [isError] at hce
    | lazy i b =>
      simp only [resolveLink]
      rw [ih b]
      cases hu : unfoldS σ n b with
      | none => rfl
      | some c =>
        have hce := unfoldS_isError σ n b c hu
        cases c with
        | error n1 m1 c1 sg1 st1 ca1 =>
          simp only [Option.map_some']
          rw [errSerializer_error (σ a).name, resolveCause_error]
          simp [truthy]
        | _ => simp [isError] at hce

/-- A chain that ends within `n` errors and reaches `b` after `k` steps ends,
from `b`, within `n - k` errors. -/
theorem chainEnds_storedAt (σ : Store) :
    ∀ (k n a b : Nat), chainEnds σ n a = true → storedAt σ k a = some b →
      k < n ∧ chainEnds σ (n - k) b = true := by
  intro k
  induction k with
  | zero =>
    intro n a b h hs
    simp only [storedAt, Option.some.injEq] at hs
    subst hs
    cases n with
    | zero => simp [chainEnds] at h
    | succ n => exact ⟨Nat.succ_pos n, h⟩
  | succ k ih =>
    intro n a b h hs
    cases n with
    | zero => simp [chainEnds] at h
    | succ n =>
      simp only [storedAt] at hs
      cases hn : nextStored σ a with
      | none => rw [hn] at hs; simp at hs
      | some a1 =>
        rw [hn] at hs
        simp only [Option.some_bind] at hs
        simp only [chainEnds, hn] at h
        obtain ⟨h1, h2⟩ := ih n a1 b h hs
        refine ⟨by omega, ?_⟩
        rw [Nat.succ_sub_succ]
        exact h2

/-- A chain that comes back to its first error does not end. -/
theorem chainEnds_cycle (σ : Store) (k a : Nat) (hk : 0 < k)
    (hc : storedAt σ k a = some a) : ∀ n, chainEnds σ n a = false := by
  intro n
  induction n using Nat.strong_induction_on with
  | _ n ih =>
    cases h : chainEnds σ n a with
    | false => rfl
    | true =>
      obtain ⟨h1, h2⟩ := chainEnds_storedAt σ k n a a h hc
      have := ih (n - k) (by omega)
      rw [this] at h2
      exact absurd h2 (by simp)

/-- A stored error whose cause is a function that throws ends its chain. -/
theorem chainEnds_of_throwing (σ : Store) :
    ∀ (k a b i : Nat), storedAt σ k a = some b → (σ b).cause = Link.val (func i none) →
      chainEnds σ (k + 1) a = true := by
  intro k
  induction k with
  | zero =>
    intro a b i hs hb
    simp only [storedAt, Option.some.injEq] at hs
    subst hs
    simp [chainEnds, nextStored, hb, resolveLink]
  | succ k ih =>
    intro a b i hs hb
    simp only [storedAt] at hs
    cases hn : nextStored σ a with
    | none => rw [hn] at hs; simp at hs
    | some a1 =>
      rw [hn] at hs
      simp only [Option.some_bind] at hs
      simp only [chainEnds, hn]
      exact ih a1 b i hs hb

/-- The result for an error is a record. -/
theorem errSerializer_isObj (e : Val) (s : Bool) (h : isError e = true) :
    ∃ fields, errSerializer e s = obj fields := by
  cases e with
  | error n m c sg st ca =>
    rw [errSerializer_error]
    split
    · exact ⟨_, rfl⟩
    · exact ⟨_, rfl⟩
  | _ => simp [isError] at h

/-! ### Facts about JSON values -/

theorem jsonSafeFields_setProp (k : String) (v : Val) :
    ∀ l : List (String × Val), lookup k l = none →
      jsonSafeFields (setProp k v l) = (jsonSafeFields l && jsonSafe v) := by
  intro l
  induction l with
  | nil => intro _; simp [setProp, jsonSafeFields]
  | cons p rest ih =>
    obtain ⟨k1, v1⟩ := p
    intro h
    by_cases h1 : k1 = k
    · simp [lookup, h1] at h
    · simp only [lookup, h1, if_false] at h
      simp [setProp, h1, jsonSafeFields, ih h, Bool.and_assoc]

theorem jsonSafeFields_baseFields (n m c sg st : Val) (s : Bool) :
    jsonSafeFields (baseFields n m c sg st s) =
      ((!truthy n || jsonSafe n) && (!truthy m || jsonSafe m) &&
        (!truthy c || jsonSafe c) && (!truthy sg || jsonSafe sg) &&
        (!(s && truthy st) || jsonSafe st)) := by
  unfold baseFields
  cases s <;> cases truthy n <;> cases truthy m <;> cases truthy c <;> cases truthy sg <;>
    cases truthy st <;> simp [setProp, jsonSafeFields, Bool.and_assoc]

theorem copiesJson_error (n m c sg st ca : Val) (s : Bool) :
    copiesJson (error n m c sg st ca) s =
      ((!truthy n || jsonSafe n) && (!truthy m || jsonSafe m) &&
        (!truthy c || jsonSafe c) && (!truthy sg || jsonSafe sg) &&
        (!(s && truthy st) || jsonSafe st) &&
        (!truthy (resolveCause (error n m c sg st ca)) ||
          copiesJson (resolveCause (error n m c sg st ca)) s)) := by
  rw [resolveCause_error]
  cases ca with
  | func i out => cases out <;> simp [copiesJson, truthy]
  | _ => simp [copiesJson, truthy]

/-- The result of `errSerializer` is a JSON value exactly when the values it
copies are. -/
theorem jsonSafe_errSerializer (s : Bool) (v : Val) :
    jsonSafe (errSerializer v s) = copiesJson v s := by
  induction v using chain_induction with
  | hbase v h => cases v <;> simp [errSerializer, copiesJson, isError] at h ⊢
  | hstep n m c sg st ca ih =>
    rw [errSerializer_error, copiesJson_error]
    cases ht : truthy (resolveCause (error n m c sg st ca)) with
    | false => simp [jsonSafe, jsonSafeFields_baseFields]
    | true =>
      simp only [if_true, jsonSafe, Bool.not_true, Bool.false_or]
      rw [jsonSafeFields_setProp _ _ _ (lookup_baseFields_cause n m c sg st s),
        jsonSafeFields_baseFields, ih]

/-- Steps along `cause` properties that hold the next error itself are steps
along resolved causes. -/
theorem storedAt_of_refAt (σ : Store) :
    ∀ (k a b : Nat), refAt σ k a = some b → storedAt σ k a = some b := by
  intro k
  induction k with
  | zero => intro a b h; simpa [refAt, storedAt] using h
  | succ k ih =>
    intro a b h
    simp only [refAt, nextRef] at h
    cases hc : (σ a).cause with
    | val v => rw [hc] at h; simp at h
    | lazy i c => rw [hc] at h; simp at h
    | ref c =>
      rw [hc] at h
      simp only [Option.some_bind] at h
      simp only [storedAt, nextStored, hc, resolveLink, Option.some_bind]
      exact ih c b h

/-! ## Non-error passthrough -/

/-- C1: for every value `v` that is not an instance of `Error` and every
`showStack` flag, `errSerializer v showStack` is `v` itself. -/
theorem errSerializer_passthrough (v : Val) (showStack : Bool) (h : isError v = false) :
    errSerializer v showStack = v := by
  cases v <;> simp [errSerializer, isError] at h ⊢

theorem errSerializer_passthrough_witness :
    isError (obj [("stack", str "trace"), ("cause", num 7)]) = false ∧
    errSerializer (obj [("stack", str "trace"), ("cause", num 7)]) true =
      obj [("stack", str "trace"), ("cause", num 7)] :=
  ⟨rfl, errSerializer_passthrough _ true rfl⟩

/-! ## Which fields the record has -/

/-- C2: for an error-like `err` and any flag, the record `errSerializer`
returns has the key `name`, `message`, `code`, `signal` exactly when that
field of `err` is truthy, and the key `stack` exactly when the flag is set and
`err.stack` is truthy; a key that is present holds the value of the field of
`err`; and an `Exception` built with the message `""` has no `message` key. -/
theorem errSerializer_fields (err : Val) (showStack : Bool) (h : isError err = true) :
    (hasKey (errSerializer err showStack) "name" = truthy (err.get "name")) ∧
    (hasKey (errSerializer err showStack) "message" = truthy (err.get "message")) ∧
    (hasKey (errSerializer err showStack) "code" = truthy (err.get "code")) ∧
    (hasKey (errSerializer err showStack) "signal" = truthy (err.get "signal")) ∧
    (hasKey (errSerializer err showStack) "stack" =
      (showStack && truthy (err.get "stack"))) ∧
    (∀ k ∈ ["name", "message", "code", "signal", "stack"],
      hasKey (errSerializer err showStack) k = true →
        getOwn (errSerializer err showStack) k = some (err.get k)) ∧
    (∀ c st, hasKey (errSerializer (constructor (some "") c st) showStack) "message" = false) := by
  cases err with
  | error n m c sg st ca =>
    have hn := getOwn_errSerializer_other n m c sg st ca showStack "name" (by decide)
    have hm := getOwn_errSerializer_other n m c sg st ca showStack "message" (by decide)
    have hc := getOwn_errSerializer_other n m c sg st ca showStack "code" (by decide)
    have hsg := getOwn_errSerializer_other n m c sg st ca showStack "signal" (by decide)
    have hst := getOwn_errSerializer_other n m c sg st ca showStack "stack" (by decide)
    rw [lookup_baseFields_name] at hn
    rw [lookup_baseFields_message] at hm
    rw [lookup_baseFields_code] at hc
    rw [lookup_baseFields_signal] at hsg
    rw [lookup_baseFields_stack] at hst
    refine ⟨?_, ?_, ?_, ?_, ?_, ?_, ?_⟩
    · simp only [hasKey, hn]; cases h0 : truthy n <;> simp [Val.get, h0]
    · simp only [hasKey, hm]; cases h0 : truthy m <;> simp [Val.get, h0]
    · simp only [hasKey, hc]; cases h0 : truthy c <;> simp [Val.get, h0]
    · simp only [hasKey, hsg]; cases h0 : truthy sg <;> simp [Val.get, h0]
    · simp only [hasKey, hst]; cases showStack <;> cases h0 : truthy st <;> simp [Val.get, h0]
    · intro k hk
      simp only [List.mem_cons, List.mem_singleton, List.not_mem_nil, or_false] at hk
      rcases hk with rfl | rfl | rfl | rfl | rfl
      · simp only [hasKey, hn]; cases h0 : truthy n <;> simp [Val.get, h0]
      · simp only [hasKey, hm]; cases h0 : truthy m <;> simp [Val.get, h0]
      · simp only [hasKey, hc]; cases h0 : truthy c <;> simp [Val.get, h0]
      · simp only [hasKey, hsg]; cases h0 : truthy sg <;> simp [Val.get, h0]
      · simp only [hasKey, hst]; cases showStack <;> cases h0 : truthy st <;> simp [Val.get, h0]
    · intro c0 st0
      simp only [constructor, hasKey]
      rw [getOwn_errSerializer_other _ _ _ _ _ _ _ "message" (by decide),
        lookup_baseFields_message]
      simp [truthy]
  | _ => simp [isError] at h

theorem errSerializer_fields_witness :
    isError (error (str "Error") (str "") (num 0) (str "SIGTERM") (str "trace") null) = true ∧
    hasKey (errSerializer (error (str "Error") (str "") (num 0) (str "SIGTERM")
      (str "trace") null) false) "message" =
      truthy ((error (str "Error") (str "") (num 0) (str "SIGTERM") (str "trace") null).get
        "message") :=
  ⟨rfl, (errSerializer_fields
    (error (str "Error") (str "") (num 0) (str "SIGTERM") (str "trace") null) false rfl).2.1⟩

/-! ## Stack traces and causes -/

/-- C3: for an error-like `e`, whatever `e.stack` is, `errSerializer e false`
has no `stack` key, and neither has the record found `k` levels down along
`cause` when it was produced from an error-like value `c` of the cause chain
of `e`. -/
theorem errSerializer_no_stack (e : Val) (he : isError e = true) (k : Nat) (c : Val)
    (hc : causeAt k e = some c) (hce : isError c = true) :
    hasKey (errSerializer e false) "stack" = false ∧
    nested k (errSerializer e false) = some (errSerializer c false) ∧
    hasKey (errSerializer c false) "stack" = false := by
  refine ⟨?_, nested_errSerializer k false e c hc, ?_⟩
  · cases e with
    | error n m cd sg st ca => exact hasKey_stack_false n m cd sg st ca
    | _ => simp [isError] at he
  · cases c with
    | error n m cd sg st ca => exact hasKey_stack_false n m cd sg st ca
    | _ => simp [isError] at hce

theorem errSerializer_no_stack_witness :
    hasKey (errSerializer (error (str "Error") (str "outer") undefined undefined (str "trace 2")
      (func 1 (some (error (str "TypeError") (str "inner") undefined undefined
        (str "trace 1") null)))) false) "stack" = false ∧
    nested 1 (errSerializer (error (str "Error") (str "outer") undefined undefined
      (str "trace 2") (func 1 (some (error (str "TypeError") (str "inner") undefined undefined
        (str "trace 1") null)))) false) =
      some (errSerializer (error (str "TypeError") (str "inner") undefined undefined
        (str "trace 1") null) false) ∧
    hasKey (errSerializer (error (str "TypeError") (str "inner") undefined undefined
      (str "trace 1") null) false) "stack" = false :=
  errSerializer_no_stack
    (error (str "Error") (str "outer") undefined undefined (str "trace 2")
      (func 1 (some (error (str "TypeError") (str "inner") undefined undefined
        (str "trace 1") null))))
    rfl 1
    (error (str "TypeError") (str "inner") undefined undefined (str "trace 1") null)
    rfl rfl

/-- C4: the record of an error-like `err` has a `cause` key exactly when the
resolved cause is truthy; an `Exception` constructed without a cause and one
constructed with the cause `null` both give a record without a `cause` key. -/
theorem errSerializer_cause_key (err : Val) (showStack : Bool) (h : isError err = true) :
    (hasKey (errSerializer err showStack) "cause" = truthy (resolveCause err)) ∧
    (∀ m st, hasKey (errSerializer (constructor m none st) showStack) "cause" = false) ∧
    (∀ m st, hasKey (errSerializer (constructor m (some null) st) showStack) "cause" = false) := by
  refine ⟨?_, ?_, ?_⟩
  · cases err with
    | error n m cd sg st ca =>
      simp only [hasKey, getOwn_errSerializer_cause]
      cases h0 : truthy (resolveCause (error n m cd sg st ca)) <;> simp
    | _ => simp [isError] at h
  · intro m st
    simp [constructor, hasKey, getOwn_errSerializer_cause, resolveCause_error, truthy]
  · intro m st
    simp [constructor, hasKey, getOwn_errSerializer_cause, resolveCause_error, truthy]

theorem errSerializer_cause_key_witness :
    hasKey (errSerializer (error (str "Error") (str "boom") undefined undefined (str "trace")
      (func 3 (some (num 0)))) true) "cause" =
    truthy (resolveCause (error (str "Error") (str "boom") undefined undefined (str "trace")
      (func 3 (some (num 0))))) :=
  (errSerializer_cause_key
    (error (str "Error") (str "boom") undefined undefined (str "trace") (func 3 (some (num 0))))
    true rfl).1

/-- C5: when the resolved cause of an error-like `err` is truthy, the `cause`
entry of `errSerializer err s` is `errSerializer` of the resolved cause with
the same flag. -/
theorem errSerializer_cause_recursive (err : Val) (s : Bool) (h : isError err = true)
    (ht : truthy (resolveCause err) = true) :
    getOwn (errSerializer err s) "cause" = some (errSerializer (resolveCause err) s) := by
  cases err with
  | error n m cd sg st ca => simp [getOwn_errSerializer_cause, ht]
  | _ => simp [isError] at h

theorem errSerializer_cause_recursive_witness :
    getOwn (errSerializer (error (str "Error") (str "outer") undefined undefined (str "t2")
      (error (str "RangeError") (str "inner") (str "E_RANGE") undefined (str "t1") null))
      true) "cause" =
    some (errSerializer (resolveCause (error (str "Error") (str "outer") undefined undefined
      (str "t2")
      (error (str "RangeError") (str "inner") (str "E_RANGE") undefined (str "t1") null)))
      true) :=
  errSerializer_cause_recursive
    (error (str "Error") (str "outer") undefined undefined (str "t2")
      (error (str "RangeError") (str "inner") (str "E_RANGE") undefined (str "t1") null))
    true rfl rfl

/-! ## Lazy causes -/

/-- C6: when `cause` is a function that throws, `errSerializer` still returns
a record; the record has no `cause` key and is the one the same error without
any cause would give. -/
theorem errSerializer_throwing_cause (n m c sg st : Val) (i : Nat) (s : Bool) :
    (∃ fields, errSerializer (error n m c sg st (func i none)) s = obj fields) ∧
    hasKey (errSerializer (error n m c sg st (func i none)) s) "cause" = false ∧
    errSerializer (error n m c sg st (func i none)) s =
      errSerializer (error n m c sg st undefined) s := by
  refine ⟨⟨baseFields n m c sg st s, ?_⟩, ?_, ?_⟩
  · simp [errSerializer_error, resolveCause_error, truthy]
  · simp [hasKey, getOwn_errSerializer_cause, resolveCause_error, truthy]
  · simp [errSerializer_error, resolveCause_error, truthy]

/-- C7: when `cause` is a function that returns an error-like `e1`, the
`cause` entry of `errSerializer err s` is `errSerializer e1 s`. -/
theorem errSerializer_lazy_cause (n m c sg st e1 : Val) (i : Nat) (s : Bool)
    (h : isError e1 = true) :
    getOwn (errSerializer (error n m c sg st (func i (some e1))) s) "cause" =
      some (errSerializer e1 s) := by
  cases e1 with
  | error n1 m1 c1 sg1 st1 ca1 =>
    rw [getOwn_errSerializer_cause, resolveCause_error]
    simp [truthy]
  | _ => simp [isError] at h

theorem errSerializer_lazy_cause_witness :
    getOwn (errSerializer (error (str "Error") (str "outer") undefined undefined (str "t2")
      (func 5 (some (error (str "Error") (str "e1") undefined undefined (str "t1") null))))
      true) "cause" =
    some (errSerializer (error (str "Error") (str "e1") undefined undefined (str "t1") null)
      true) :=
  errSerializer_lazy_cause (str "Error") (str "outer") undefined undefined (str "t2")
    (error (str "Error") (str "e1") undefined undefined (str "t1") null) 5 true rfl

/-! ## The example of the specification -/

/-- C8, as stated: whatever the captured stacks are, the example does not
return the record with `message` as the only key beside `cause`. -/
theorem toObject_example_not_message_only :
    ¬ ∃ st1 st2 : Val,
      toObject (constructor (some "disk full")
        (some (constructor (some "permission denied") none st2)) st1) (some false) =
      obj [("message", str "disk full"), ("cause", obj [("message", str "permission denied")])] := by
  rintro ⟨st1, st2, h⟩
  simp [toObject, constructor, errSerializer, errorPrototypeName, truthy, setProp] at h

/-- C8, amended: the example returns the record in which each of the two
levels has `name`, read from `Error.prototype` as `"Error"`, and `message` as
its only keys beside `cause`. -/
theorem toObject_example (st1 st2 : Val) :
    toObject (constructor (some "disk full")
      (some (constructor (some "permission denied") none st2)) st1) (some false) =
    obj [("name", str "Error"), ("message", str "disk full"),
      ("cause", obj [("name", str "Error"), ("message", str "permission denied")])] := by
  simp [toObject, constructor, errSerializer, errorPrototypeName, truthy, setProp]

/-! ## Falsy fields that are neither undefined nor null -/

/-- C9, evaluated on an error whose `code` is `0`: the record has no `code`
key, although `0` is neither `undefined` nor `null`. -/
theorem errSerializer_drops_code_zero :
    errSerializer (error (str "Error") (str "exited") (num 0) undefined (str "trace") null) true =
      obj [("name", str "Error"), ("message", str "exited"), ("stack", str "trace")] ∧
    hasKey (errSerializer (error (str "Error") (str "exited") (num 0) undefined (str "trace")
      null) true) "code" = false := by
  constructor <;> rfl

/-! ## The JSON hook -/

/-- C10: for an `Exception` `e` and any key `k` (or none), `e.toJSON(k)` is
`e.toObject()`, which is `errSerializer e true`; `e.toObject(s)` is
`errSerializer e s` for every flag `s`; and the result of the hook has the
`stack` key whenever `e.stack` is truthy. -/
theorem toJSON_eq_errSerializer (e : Val) (k : Option Val) (h : isError e = true) :
    toJSON e k = toObject e none ∧
    toObject e none = errSerializer e true ∧
    (∀ s : Bool, toObject e (some s) = errSerializer e s) ∧
    hasKey (toJSON e k) "stack" = truthy (e.get "stack") := by
  refine ⟨rfl, rfl, fun _ => rfl, ?_⟩
  cases e with
  | error n m c sg st ca =>
    simp only [toJSON, toObject, Option.getD, hasKey]
    rw [getOwn_errSerializer_other _ _ _ _ _ _ _ "stack" (by decide), lookup_baseFields_stack]
    cases h0 : truthy st <;> simp [Val.get, h0]
  | _ => simp [isError] at h

theorem toJSON_eq_errSerializer_witness :
    toJSON (constructor (some "disk full") none (str "trace")) (some (str "")) =
      toObject (constructor (some "disk full") none (str "trace")) none ∧
    toObject (constructor (some "disk full") none (str "trace")) none =
      errSerializer (constructor (some "disk full") none (str "trace")) true ∧
    (∀ s : Bool, toObject (constructor (some "disk full") none (str "trace")) (some s) =
      errSerializer (constructor (some "disk full") none (str "trace")) s) ∧
    hasKey (toJSON (constructor (some "disk full") none (str "trace")) (some (str ""))) "stack" =
      truthy ((constructor (some "disk full") none (str "trace")).get "stack") :=
  toJSON_eq_errSerializer (constructor (some "disk full") none (str "trace"))
    (some (str "")) rfl

/-! ## The constructor and the cause accessor -/

/-- C11, as stated: for the supplied cause `undefined` the accessor does not
return the supplied value. -/
theorem cause_of_undefined_ne :
    ¬ (cause (constructor (some "boom") (some undefined) (str "trace")) = undefined) := by
  simp [cause, constructor]

/-- C11, amended: for every message and every supplied cause `c` other than
`undefined`, the `cause` accessor of the constructed `Exception` returns `c`;
when no cause is supplied, or `undefined` is, it returns `null`. -/
theorem cause_constructor (m : Option String) (c st : Val) (h : c ≠ undefined) :
    cause (constructor m (some c) st) = c ∧
    cause (constructor m none st) = null ∧
    cause (constructor m (some undefined) st) = null := by
  refine ⟨?_, rfl, rfl⟩
  cases c <;> simp [cause, constructor] at h ⊢

theorem cause_constructor_witness :
    cause (constructor (some "disk full") (some (func 2 none)) (str "trace")) = func 2 none ∧
    cause (constructor (some "disk full") none (str "trace")) = null ∧
    cause (constructor (some "disk full") (some undefined) (str "trace")) = null :=
  cause_constructor (some "disk full") (func 2 none) (str "trace") (by simp)

/-! ## Depth of the serialized chain -/

/-- C12: for a chain of `n ≥ 1` errors in which the cause of each is the next
and the innermost has no cause, every level `j < n` of `errSerializer` of the
outermost error is a record, the one built from the `j`-th error of the chain;
the record at depth `n` has no `cause` key, so no level `n + 1` exists. -/
theorem errSerializer_chain_depth (last : Val) (l : List ErrFields) (s : Bool)
    (hl : l ≠ []) (hlast : last = undefined ∨ last = null) :
    (∀ j, j < l.length → ∃ fields,
      nested j (errSerializer (chainOf last l) s) = some (obj fields) ∧
      errSerializer (chainOf last (l.drop j)) s = obj fields) ∧
    (∃ r, nested (l.length - 1) (errSerializer (chainOf last l) s) = some r ∧
      hasKey r "cause" = false) ∧
    nested l.length (errSerializer (chainOf last l) s) = none := by
  have hlevel : ∀ j, j < l.length →
      nested j (errSerializer (chainOf last l) s) =
        some (errSerializer (chainOf last (l.drop j)) s) :=
    fun j hj => nested_errSerializer j s _ _ (causeAt_chainOf last l j hj)
  have hpos : 0 < l.length := List.length_pos.mpr hl
  have hlastlevel : ∃ f, l.drop (l.length - 1) = [f] := by
    have hlen : (l.drop (l.length - 1)).length = 1 := by
      rw [List.length_drop]; omega
    match hd : l.drop (l.length - 1), hlen with
    | [f], _ => exact ⟨f, rfl⟩
  have hres : ∀ f : ErrFields,
      truthy (resolveCause (error f.name f.message f.code f.signal f.stack last)) = false := by
    intro f
    rcases hlast with h | h <;> simp [h, resolveCause_error, truthy]
  obtain ⟨f, hf⟩ := hlastlevel
  have hkey : hasKey (errSerializer (chainOf last [f]) s) "cause" = false := by
    simp [chainOf, hasKey, getOwn_errSerializer_cause, hres f]
  refine ⟨?_, ?_, ?_⟩
  · intro j hj
    rw [hlevel j hj]
    have hne : l.drop j ≠ [] := by
      intro h0
      have := congrArg List.length h0
      rw [List.length_drop] at this
      simp at this
      omega
    match hd : l.drop j, hne with
    | g :: gs, _ =>
      simp only [chainOf]
      rw [errSerializer_error]
      split
      · exact ⟨_, rfl, rfl⟩
      · exact ⟨_, rfl, rfl⟩
  · refine ⟨errSerializer (chainOf last [f]) s, ?_, hkey⟩
    rw [hlevel _ (by omega), hf]
  · have hn : l.length = (l.length - 1) + 1 := by omega
    rw [hn, nested_succ, hlevel _ (by omega), hf]
    simp only [Option.some_bind]
    simpa [hasKey] using hkey

theorem errSerializer_chain_depth_witness :
    (∀ j, j < 3 → ∃ fields,
      nested j (errSerializer (chainOf null
        [⟨str "Error", str "e3", undefined, undefined, str "t3"⟩,
         ⟨str "Error", str "e2", undefined, undefined, str "t2"⟩,
         ⟨str "Error", str "e1", undefined, undefined, str "t1"⟩]) true) = some (obj fields) ∧
      errSerializer (chainOf null
        (List.drop j [⟨str "Error", str "e3", undefined, undefined, str "t3"⟩,
         ⟨str "Error", str "e2", undefined, undefined, str "t2"⟩,
         ⟨str "Error", str "e1", undefined, undefined, str "t1"⟩])) true = obj fields) ∧
    (∃ r, nested 2 (errSerializer (chainOf null
        [⟨str "Error", str "e3", undefined, undefined, str "t3"⟩,
         ⟨str "Error", str "e2", undefined, undefined, str "t2"⟩,
         ⟨str "Error", str "e1", undefined, undefined, str "t1"⟩]) true) = some r ∧
      hasKey r "cause" = false) ∧
    nested 3 (errSerializer (chainOf null
        [⟨str "Error", str "e3", undefined, undefined, str "t3"⟩,
         ⟨str "Error", str "e2", undefined, undefined, str "t2"⟩,
         ⟨str "Error", str "e1", undefined, undefined, str "t1"⟩]) true) = none :=
  errSerializer_chain_depth null
    [⟨str "Error", str "e3", undefined, undefined, str "t3"⟩,
     ⟨str "Error", str "e2", undefined, undefined, str "t2"⟩,
     ⟨str "Error", str "e1", undefined, undefined, str "t1"⟩] true (by simp) (Or.inr rfl)

/-! ## Keys of the record -/

/-- C16: for an error-like `err` and either flag, the keys of the record
`errSerializer` returns are, in insertion order, a sublist of
`name, message, code, signal, stack, cause`, without repetition. -/
theorem errSerializer_keys (err : Val) (s : Bool) (h : isError err = true) :
    List.Sublist (keys (errSerializer err s))
      ["name", "message", "code", "signal", "stack", "cause"] ∧
    (keys (errSerializer err s)).Nodup := by
  have hsub : List.Sublist (keys (errSerializer err s))
      ["name", "message", "code", "signal", "stack", "cause"] := by
    cases err with
    | error n m c sg st ca =>
      rw [errSerializer_error]
      unfold baseFields
      cases truthy (resolveCause (error n m c sg st ca)) <;> cases s <;> cases truthy n <;>
        cases truthy m <;> cases truthy c <;> cases truthy sg <;> cases truthy st <;>
        simp [keys, setProp] <;> decide
    | _ => simp [isError] at h
  exact ⟨hsub, hsub.nodup (by decide)⟩

theorem errSerializer_keys_witness :
    List.Sublist (keys (errSerializer (error (str "Error") (str "boom") (str "ENOENT") undefined
      (str "trace") (str "reason")) true))
      ["name", "message", "code", "signal", "stack", "cause"] ∧
    (keys (errSerializer (error (str "Error") (str "boom") (str "ENOENT") undefined
      (str "trace") (str "reason")) true)).Nodup :=
  errSerializer_keys (error (str "Error") (str "boom") (str "ENOENT") undefined
    (str "trace") (str "reason")) true rfl

/-! ## Causes that are not errors -/

/-- C17: when the cause of an error is a truthy value `v` that is neither
error-like nor a function, the `cause` entry of the record is `v` itself. -/
theorem errSerializer_plain_cause (n m c sg st v : Val) (s : Bool)
    (ht : truthy v = true) (he : isError v = false) (hf : isFunction v = false) :
    getOwn (errSerializer (error n m c sg st v) s) "cause" = some v := by
  rw [getOwn_errSerializer_cause, resolveCause_error]
  cases v <;> simp [isFunction, isError, errSerializer] at hf he ⊢ <;> simpa using ht

theorem errSerializer_plain_cause_witness :
    getOwn (errSerializer (error (str "Error") (str "boom") undefined undefined (str "trace")
      (obj [("stack", str "kept"), ("detail", undefined)])) false) "cause" =
    some (obj [("stack", str "kept"), ("detail", undefined)]) :=
  errSerializer_plain_cause (str "Error") (str "boom") undefined undefined (str "trace")
    (obj [("stack", str "kept"), ("detail", undefined)]) false rfl rfl rfl

/-! ## Idempotence -/

/-- C18: `errSerializer` is idempotent: for every value `v` and all flags `s`
and `t`, serializing `errSerializer v s` again with `t` changes nothing,
because the result is never an instance of `Error`. -/
theorem errSerializer_idempotent (v : Val) (s t : Bool) :
    isError (errSerializer v s) = false ∧
    errSerializer (errSerializer v s) t = errSerializer v s := by
  cases v with
  | error n m c sg st ca =>
    rw [errSerializer_error]
    split <;> simp [errSerializer, isError]
  | _ => simp [errSerializer, isError]

/-! ## A lazy cause that returns a function -/

/-- C19: when the cause of an error is a function `i` that returns a function
`g`, `errSerializer` makes exactly one call, that of `i`, and stores `g`
itself under `cause`. -/
theorem errSerializer_lazy_function (n m c sg st : Val) (i j : Nat) (out : Option Val)
    (s : Bool) :
    (errSerializerTraced (error n m c sg st (func i (some (func j out)))) s).2 = [i] ∧
    (errSerializerTraced (error n m c sg st (func i (some (func j out)))) s).1 =
      errSerializer (error n m c sg st (func i (some (func j out)))) s ∧
    getOwn (errSerializer (error n m c sg st (func i (some (func j out)))) s) "cause" =
      some (func j out) := by
  refine ⟨?_, errSerializerTraced_fst s _, ?_⟩
  · simp [errSerializerTraced, truthy]
  · rw [getOwn_errSerializer_cause, resolveCause_error]
    simp [truthy, errSerializer]

/-! ## Termination -/

/-- C13: for a stored error whose cause chain ends within `n` errors,
`errSerializer` returns within recursion depth `n`, the result is a record
(the one `errSerializer` gives on the chain taken as a value) and a larger
bound gives the same result; a cause accessor that throws at any depth `k`
ends the chain there, and the call returns a record within depth `k + 1`; on
every value of `Val` the result is the value itself or a record. -/
theorem errSerializer_terminates (σ : Store) (a : Nat) (s : Bool) :
    (∀ n, chainEnds σ n a = true →
      (∃ e fields, unfoldS σ n a = some e ∧ errSerializerS σ n a s = some (obj fields) ∧
        errSerializer e s = obj fields) ∧
      ∀ f, n ≤ f → errSerializerS σ f a s = errSerializerS σ n a s) ∧
    (∀ k b i, storedAt σ k a = some b → (σ b).cause = Link.val (func i none) →
      ∃ fields, errSerializerS σ (k + 1) a s = some (obj fields)) ∧
    (∀ v : Val, errSerializer v s = v ∨ ∃ fields, errSerializer v s = obj fields) := by
  have hends : ∀ n, chainEnds σ n a = true →
      ∃ e fields, unfoldS σ n a = some e ∧ errSerializerS σ n a s = some (obj fields) ∧
        errSerializer e s = obj fields := by
    intro n hn
    have hsome := errSerializerS_isSome σ s n a
    rw [hn, errSerializerS_eq_unfoldS] at hsome
    cases hu : unfoldS σ n a with
    | none => rw [hu] at hsome; simp at hsome
    | some e =>
      obtain ⟨fields, hf⟩ := errSerializer_isObj e s (unfoldS_isError σ n a e hu)
      refine ⟨e, fields, rfl, ?_, hf⟩
      rw [errSerializerS_eq_unfoldS, hu]
      simp [hf]
  refine ⟨fun n hn => ⟨hends n hn, errSerializerS_mono σ s n a hn⟩, ?_, ?_⟩
  · intro k b i hs hb
    obtain ⟨e, fields, _, hr, _⟩ := hends (k + 1) (chainEnds_of_throwing σ k a b i hs hb)
    exact ⟨fields, hr⟩
  · intro v
    cases hv : isError v with
    | true => exact Or.inr (errSerializer_isObj v s hv)
    | false =>
      left
      cases v <;> simp [errSerializer, isError] at hv ⊢

theorem errSerializer_terminates_witness :
    ∃ fields, errSerializerS faultyChain (2 + 1) 0 false = some (obj fields) :=
  (errSerializer_terminates faultyChain 0 false).2.1 2 2 8 rfl rfl

/-! ## Cyclic cause chains -/

/-- C15, as stated: for the error that is its own cause, no bound on the
depth of the recursion lets `errSerializer` return. -/
theorem errSerializerS_selfCaused_never_returns :
    ¬ ∃ depth, (errSerializerS selfCaused depth 0 true).isSome = true := by
  rintro ⟨depth, h⟩
  rw [errSerializerS_isSome, chainEnds_cycle selfCaused 1 0 (by decide) rfl depth] at h
  simp at h

/-- C15, amended: the code has no cycle guard; for an error that is, after
`k ≥ 1` steps along `cause` properties that hold the next error itself, its
own cause, every call recurses into the cause again and `errSerializer`
returns a result at no depth of the recursion. -/
theorem errSerializerS_cyclic (σ : Store) (k a : Nat) (s : Bool) (hk : 0 < k)
    (hc : refAt σ k a = some a) :
    ∀ depth, errSerializerS σ depth a s = none := by
  have hends := chainEnds_cycle σ k a hk (storedAt_of_refAt σ k a a hc)
  intro depth
  have h := errSerializerS_isSome σ s depth a
  rw [hends depth] at h
  cases hr : errSerializerS σ depth a s with
  | none => rfl
  | some r => rw [hr] at h; simp at h

theorem errSerializerS_cyclic_witness :
    refAt selfCaused 1 0 = some 0 ∧ errSerializerS selfCaused 1000 0 false = none :=
  ⟨rfl, errSerializerS_cyclic selfCaused 1 0 false (by decide) rfl 1000⟩

/-! ## JSON round trip -/

/-- C14, as stated: the record of an error whose cause is the plain object
`{status: 503, detail: undefined}` holds that object as it is, and the JSON
round trip drops its `detail` property. -/
theorem errSerializer_not_jsonSafe :
    ¬ (jsonSafe (errSerializer (error (str "Error") (str "boom") undefined undefined
      (str "trace") (obj [("status", num 503), ("detail", undefined)])) true) = true) := by
  decide

/-- C14, amended: the record `errSerializer` returns for an error-like input
is unchanged by the JSON round trip exactly when every value copied into it
is: the serializer neither converts nor filters the values it copies. -/
theorem errSerializer_jsonSafe_iff (e : Val) (s : Bool) (h : isError e = true) :
    (∃ fields, errSerializer e s = obj fields) ∧
    (jsonSafe (errSerializer e s) = true ↔ copiesJson e s = true) := by
  refine ⟨errSerializer_isObj e s h, ?_⟩
  rw [jsonSafe_errSerializer]

theorem errSerializer_jsonSafe_iff_witness :
    jsonSafe (errSerializer (error (str "Error") (str "disk full") (str "ENOSPC") undefined
      (str "trace 2") (func 1 (some (error (str "Error") (str "permission denied") (num 13)
        undefined (str "trace 1") (obj [("path", str "/tmp"), ("fatal", Val.bool false)])))))
      true) = true :=
  (errSerializer_jsonSafe_iff
    (error (str "Error") (str "disk full") (str "ENOSPC") undefined
      (str "trace 2") (func 1 (some (error (str "Error") (str "permission denied") (num 13)
        undefined (str "trace 1") (obj [("path", str "/tmp"), ("fatal", Val.bool false)])))))
    true rfl).2.mpr rfl

end Exception
